import Mathlib

/-!
Verification of the spatial matching, temporal averaging, trend fitting and
outlier filtering core of the InSAR-GNSS workflow
(file `plot_combined_time_series.py`), as a shallow embedding in Lean.

Conventions of the embedding:

* Floating-point cell values of the program are embedded as exact rationals.
  The IEEE value NaN, produced by pandas and numpy reductions over empty or
  missing data and propagated through arithmetic, is embedded as `none` in
  `Option ℚ` (the abbreviation `Cell` below).
* Coordinates read from the CSV inputs are decimal numerals; they are kept as
  rationals in the row model and cast to `ℝ` exactly where the trigonometric
  distance formulas of the program consume them.
* A dataframe is a list of rows; boolean-mask selection is `List.filter`,
  which keeps the original relative order exactly as pandas does.
* Calls into external libraries (scipy `linregress`, the geopy `geodesic`)
  are embedded from the documented behaviour of those libraries at the exact
  call sites of the program; each such definition carries a comment saying
  what is being modelled.
-/

namespace InsarGnss

/-- A float-valued cell: `none` embeds IEEE NaN (missing value). -/
abbrev Cell := Option ℚ

/-- Pandas mean over a column or row of possibly missing values: missing
entries are skipped, the present ones are averaged, and the mean of no
present values is NaN (embedded as `none`). -/
def nanMean (vs : List Cell) : Cell :=
  let present := vs.filterMap id
  if present.isEmpty then none
  else some (present.sum / (present.length : ℚ))

/-- The scipy test `np.amax(x) == np.amin(x)`, for a list of rationals:
true exactly when all entries are equal (vacuously true on `[]`). -/
def allSame : List ℚ → Bool
  | [] => true
  | x :: xs => xs.all (fun v => v == x)

/-- Float division as it occurs in `linregress`: the denominator can only be
zero when the numerator is zero as well (a zero centered second moment forces
a zero centered mixed moment), and `0.0/0.0` is NaN, embedded as `none`. -/
def nanDiv (a b : ℚ) : Cell := if b = 0 then none else some (a / b)

/-- numpy NaN propagation through a list of cells: `some` of the list of
values when every cell is present, `none` as soon as one cell is NaN. -/
def seqCells : List Cell → Option (List ℚ)
  | [] => some []
  | none :: _ => none
  | some v :: rest => (seqCells rest).map (fun l => v :: l)

/-- Model of `scipy.stats.linregress(x, y)` as called at lines 187, 196 and
200 of `plot_combined_time_series.py`, following the scipy implementation:
empty input raises `ValueError`; identical x values with more than one point
raise `ValueError`; mismatched lengths raise in the covariance computation;
otherwise `slope = ssxym / ssxm` and `intercept = ymean - slope * xmean`,
with `ssxm` and `ssxym` the centered second moments.  A NaN among the y
values (a missing displacement average) propagates into NaN slope and
intercept, as does the `0/0` division arising from a single data point. -/
def linregress (x : List ℚ) (y : List Cell) : Except String (Cell × Cell) :=
  if x.isEmpty ∨ y.isEmpty then
    .error "Inputs must not be empty."
  else if allSame x ∧ 1 < x.length then
    .error "Cannot calculate a linear regression if all x values are identical"
  else if x.length ≠ y.length then
    .error "x and y must have the same length"
  else
    match seqCells y with
    | none => .ok (none, none)
    | some ys =>
      let n : ℚ := x.length
      let xmean := x.sum / n
      let ymean := ys.sum / n
      let ssxm := (x.map (fun v => (v - xmean) ^ 2)).sum / n
      let ssxym := ((x.zip ys).map (fun p => (p.1 - xmean) * (p.2 - ymean))).sum / n
      match nanDiv ssxym ssxm with
      | none => .ok (none, none)
      | some slope => .ok (some slope, some (ymean - slope * xmean))

/-- Residual sum of squares of the line `y = s * x + b` over data pairs:
the quantity ordinary least squares minimises. -/
def rss (xy : List (ℚ × ℚ)) (s b : ℚ) : ℚ :=
  (xy.map (fun p => (p.2 - (s * p.1 + b)) ^ 2)).sum

/-- The x vector `range(len(time_dates))` handed to `linregress` for the
InSAR series: the 0-based epoch indices, as rationals. -/
def indicesQ (n : Nat) : List ℚ := (List.range n).map (fun i : Nat => (i : ℚ))

/-! ## Geometry: the distance routines -/

/-- `np.radians`: degrees to radians. -/
noncomputable def toRadians (x : ℝ) : ℝ := x * (Real.pi / 180)

/-- `np.arctan2 y x`: the quadrant-aware arctangent of numpy. -/
noncomputable def arctan2 (y x : ℝ) : ℝ :=
  if 0 < x then Real.arctan (y / x)
  else if x < 0 then
    (if 0 ≤ y then Real.arctan (y / x) + Real.pi else Real.arctan (y / x) - Real.pi)
  else if 0 < y then Real.pi / 2
  else if y < 0 then -(Real.pi / 2)
  else 0

/-- `haversine_distance_vectorized` (lines 100-111): great-circle distance in
meters by the haversine formula, Earth radius 6371000 m.  The numpy function
maps this scalar computation over arrays; the embedding states the per-point
computation. -/
noncomputable def haversine_distance_vectorized (lat1 lon1 lat2 lon2 : ℝ) : ℝ :=
  let R : ℝ := 6371000
  let lat1r := toRadians lat1
  let lon1r := toRadians lon1
  let lat2r := toRadians lat2
  let lon2r := toRadians lon2
  let dlat := lat2r - lat1r
  let dlon := lon2r - lon1r
  let a := Real.sin (dlat / 2) ^ 2 +
    Real.cos lat1r * Real.cos lat2r * Real.sin (dlon / 2) ^ 2
  let c := 2 * arctan2 (Real.sqrt a) (Real.sqrt (1 - a))
  R * c

/-- `fast_haversine` (lines 162-172), the local helper of
`plot_combined_time_series`: same formula, applied to one coordinate pair of
the stacked coordinate array. -/
noncomputable def fast_haversine (lat1 lon1 : ℝ) (coord : ℝ × ℝ) : ℝ :=
  let R : ℝ := 6371000
  let lat1r := toRadians lat1
  let lon1r := toRadians lon1
  let lat2r := toRadians coord.1
  let lon2r := toRadians coord.2
  let dlat := lat2r - lat1r
  let dlon := lon2r - lon1r
  let a := Real.sin (dlat / 2) ^ 2 +
    Real.cos lat1r * Real.cos lat2r * Real.sin (dlon / 2) ^ 2
  let c := 2 * arctan2 (Real.sqrt a) (Real.sqrt (1 - a))
  R * c

/-- WGS84 semi-major axis in meters, the equatorial radius of the ellipsoid
used by the external geopy library. -/
noncomputable def wgs84_a : ℝ := 6378137

/-- Model of the external call `geopy.distance.geodesic(p, q).meters` for the
special case of two points on the equator (latitude 0): geopy returns the
geodesic distance on the WGS84 ellipsoid, the equator is a geodesic of that
ellipsoid, and for two equatorial points closer than half the circumference
the geodesic is the equatorial arc, of length `a * |Δλ|` with `a` the
semi-major axis.  Only this special case of the external library is needed
to compare its classification with the haversine routines. -/
noncomputable def geopy_geodesic_equator (lon1 lon2 : ℝ) : ℝ :=
  wgs84_a * |toRadians lon2 - toRadians lon1|

/-! ## The data model -/

/-- One row of an InSAR CSV (`insar_before` / `insar_after`).  The columns
read by the program are the coordinates, the `temporal_coherence` quality
value, and the epoch columns, whose names are 8-digit date strings; `values`
lists the cells of the epoch columns in their chronological column order
(`none` embeds an empty or NaN cell).  `distance` embeds the extra
`distance` column that `filter_within_radius` writes into a dataframe: it is
absent (`none`) in a freshly read CSV.  The epoch-column selection of the
program, `[col for col in df.columns if col.isdigit()]`, never selects the
`distance` column, since its name has no digits; the embedding therefore
keeps the epoch cells and the distance cell in separate fields. -/
structure InsarRow where
  latitude : ℚ
  longitude : ℚ
  temporal_coherence : ℚ
  values : List Cell
  distance : Option ℝ

/-- One row of the whitespace-delimited station list. -/
structure Station where
  name : String
  latitude : ℚ
  longitude : ℚ

/-- One successfully parsed data line of a GNSS per-station file
(lines 80-86 of `load_gnss_data`): modified Julian date and the
North/East/Up/line-of-sight displacements in millimeters.  The time-string
column is dropped: the program never reads the `TIME` column again. -/
structure GnssRow where
  mjd : ℚ
  north : ℚ
  east : ℚ
  up : ℚ
  los : ℚ
deriving DecidableEq

/-- One line of a GNSS file, abstracted to the outcome of the string-level
classification in `load_gnss_data` (lines 73-89): `header` covers the
skipped blank, `MJD`-prefixed, `---`-prefixed and `in mm` lines; `short`
covers lines with fewer than 7 whitespace-separated fields; `malformed`
covers lines where a numeric field fails `float(...)` (skipped with a
warning); `valid` carries a parsed row. -/
inductive GnssLine where
  | header
  | short
  | malformed
  | valid (row : GnssRow)
deriving DecidableEq

/-- The rows that survive the line classification of `load_gnss_data`. -/
def parsedRows (lines : List GnssLine) : List GnssRow :=
  lines.filterMap (fun l => match l with | .valid r => some r | _ => none)

/-- `load_gnss_data` (lines 65-97): collect the valid rows and raise
`ValueError` when none survive (the `df.empty or df["MJD"].isnull().all()`
test at line 91; the second disjunct is unreachable because every collected
row carries a parsed MJD). -/
def load_gnss_data (lines : List GnssLine) : Except String (List GnssRow) :=
  let rows := parsedRows lines
  if rows.isEmpty then .error "GNSS file contains no valid MJD data."
  else .ok rows

/-- The `DATE` column (line 93): `pd.to_datetime(MJD, origin=1858-11-17,
unit="D")`, expressed in seconds since the MJD origin. -/
def dateSeconds (r : GnssRow) : ℚ := r.mjd * 86400

/-- The `decimal_year` column (lines 94-96): elapsed seconds since the first
sample, divided by `365.25 * 24 * 3600`. -/
def decimal_years (rows : List GnssRow) : List ℚ :=
  match rows with
  | [] => []
  | r0 :: _ =>
    rows.map (fun r => (dateSeconds r - dateSeconds r0) / (365.25 * 24 * 3600))

/-! ## Spatial matching and temporal averaging (time-series path) -/

open Classical in
/-- The boolean-mask selection `insar_df[distances <= radius]` of
`find_insar_average_within_radius` (lines 119-123) and the identical masks
`before_dist <= INSAR_RADIUS` / `after_dist <= INSAR_RADIUS` of the station
loop (lines 174-177): keep the rows whose haversine distance to the station
is at most the radius (inclusive boundary). -/
noncomputable def ts_within_radius (df : List InsarRow) (slat slon radius : ℚ) :
    List InsarRow :=
  df.filter (fun p =>
    decide (haversine_distance_vectorized (slat : ℝ) (slon : ℝ)
      (p.latitude : ℝ) (p.longitude : ℝ) ≤ (radius : ℝ)))

/-- The column mean at one epoch index over a subset of rows:
`within_radius[time_columns].mean()` computes this for every epoch column,
skipping missing cells, with NaN for a column with no present cell. -/
def epochMean (pts : List InsarRow) (e : Nat) : Cell :=
  nanMean (pts.map (fun p => p.values.getD e none))

/-- The per-epoch column means over the `E` epoch columns of the dataframe
(the Temporal Averager, lines 124-125 and 178-179). -/
def insar_column_means (E : Nat) (pts : List InsarRow) : List Cell :=
  (List.range E).map (epochMean pts)

/-- `find_insar_average_within_radius` (lines 114-125): average displacement
per epoch over the rows within `radius` meters of the station. -/
noncomputable def find_insar_average_within_radius (E : Nat) (df : List InsarRow)
    (slat slon radius : ℚ) : List Cell :=
  insar_column_means E (ts_within_radius df slat slon radius)

/-! ## Outlier filtering (velocity map paths) -/

/-- `df[time_columns].mean(axis=1)` for one row: the per-point mean velocity
across its epochs, skipping missing cells (NaN for a row with none). -/
def rowVelocity (p : InsarRow) : Cell := nanMean p.values

/-- `Series.quantile(q)` of pandas with the default linear interpolation,
applied to an already sorted list of the present values: the position is
`q * (n - 1)` and the value is interpolated linearly between the
neighbouring order statistics. -/
def quantileSorted (s : List ℚ) (q : ℚ) : ℚ :=
  let pos := q * ((s.length : ℚ) - 1)
  let i := (⌊pos⌋).toNat
  let lo := s.getD i 0
  let hi := s.getD (i + 1) lo
  lo + (pos - (i : ℚ)) * (hi - lo)

/-- `Series.quantile(q)`: missing entries are dropped, and the quantile of a
series with no present value is NaN (`none`). -/
def quantile (vs : List Cell) (q : ℚ) : Cell :=
  let present := vs.filterMap id
  if present.isEmpty then none
  else some (quantileSorted (List.insertionSort (fun a b => a ≤ b) present) q)

/-- The mask-and-extract on the velocity series:
`velocities[(velocities >= lower) & (velocities <= upper)]`.  A NaN velocity
compares false on both sides and is dropped. -/
def keptVelocities (vels : List Cell) (lower upper : ℚ) : List ℚ :=
  vels.filterMap (fun c => c.bind (fun v =>
    if lower ≤ v ∧ v ≤ upper then some v else none))

/-- The row mask `(velocities >= lower) & (velocities <= upper)` for one row:
true exactly when the row velocity is present and inside the bounds. -/
def velocityInBounds (lower upper : ℚ) (p : InsarRow) : Bool :=
  match rowVelocity p with
  | some v => decide (lower ≤ v) && decide (v ≤ upper)
  | none => false

/-- `filter_normal_points` (lines 233-243), the outlier filter of the
regional velocity map: per-point mean velocities, quartiles Q1 and Q3 by
linear interpolation, and retention of the rows whose velocity lies in
`[Q1 - 2.0 * IQR, Q3 + 2.0 * IQR]`.  When no velocity is present the
quartiles are NaN, every comparison with them is false, and nothing is
retained. -/
def filter_normal_points (df : List InsarRow) : List InsarRow × List ℚ :=
  let velocities := df.map rowVelocity
  match quantile velocities (1/4), quantile velocities (3/4) with
  | some q1, some q3 =>
    let iqr := q3 - q1
    let lower := q1 - 2.0 * iqr
    let upper := q3 + 2.0 * iqr
    (df.filter (velocityInBounds lower upper), keptVelocities velocities lower upper)
  | _, _ => ([], [])

/-- The column write `df["distance"] = df.apply(lambda row: geodesic((row
latitude, row longitude), (station_lat, station_lon)).meters, axis=1)` at
lines 310-313: every row of the dataframe gets its `distance` cell set (any
previous content is overwritten).  The external geopy call is the parameter
`geod`, a function of the row coordinates only: the station coordinates are
fixed in the enclosing scope. -/
noncomputable def writeDistances (geod : ℚ → ℚ → ℝ) (df : List InsarRow) :
    List InsarRow :=
  df.map (fun p => { p with distance := some (geod p.latitude p.longitude) })

open Classical in
/-- The selection `within_radius = df[df["distance"] <= radius]` (line 314),
on the dataframe that just received its distance column. -/
noncomputable def stationWithin (geod : ℚ → ℚ → ℝ) (radius : ℚ)
    (df : List InsarRow) : List InsarRow :=
  (writeDistances geod df).filter (fun p => decide (p.distance.getD 0 ≤ (radius : ℝ)))

/-- `filter_within_radius` (lines 309-324), the per-station velocity-map
routine.  The first statement of its body WRITES a `distance` column into
the dataframe passed by the caller - an in-place mutation that outlives the
call; the function then selects the rows within the radius and applies the
outlier rule with multiplier 1.5.  The result is the pair of the mutated
dataframe (the lasting state of the caller) and the Python return value
`(normal_points, normal_velocities)`. -/
noncomputable def filter_within_radius (geod : ℚ → ℚ → ℝ) (radius : ℚ)
    (df : List InsarRow) : List InsarRow × (List InsarRow × List ℚ) :=
  (writeDistances geod df,
    let within := stationWithin geod radius df
    let velocities := within.map rowVelocity
    match quantile velocities (1/4), quantile velocities (3/4) with
    | some q1, some q3 =>
      let iqr := q3 - q1
      let lower := q1 - 1.5 * iqr
      let upper := q3 + 1.5 * iqr
      (within.filter (velocityInBounds lower upper), keptVelocities velocities lower upper)
    | _, _ => ([], []))

/-! ## The dataflow of the `__main__` block -/

/-- The coherence mask of lines 139-140:
`df[df["temporal_coherence"] >= MIN_TEMPORAL_COHERENCE]`. -/
def coherenceFilter (c : ℚ) (df : List InsarRow) : List InsarRow :=
  df.filter (fun p => decide (c ≤ p.temporal_coherence))

/-- The dataframes each plotting phase receives. -/
structure PipelineInputs where
  tsBefore : List InsarRow
  tsAfter : List InsarRow
  regionalBefore : List InsarRow
  regionalAfter : List InsarRow
  stationBefore : List InsarRow
  stationAfter : List InsarRow

/-- The dataflow of the `__main__` block (lines 356-371) together with the
head of `plot_combined_time_series` (lines 135-140): both places read the
same two CSV files, so each phase starts from the same raw row lists;
`plot_combined_time_series` then applies the coherence mask to its own
copies, while `plot_global_velocity_map` and `plot_station_velocity_map`
receive the freshly re-read, unfiltered dataframes. -/
def main_flow (c : ℚ) (before after : List InsarRow) : PipelineInputs :=
  { tsBefore := coherenceFilter c before
    tsAfter := coherenceFilter c after
    regionalBefore := before
    regionalAfter := after
    stationBefore := before
    stationAfter := after }

/-! ## The per-station loop of `plot_combined_time_series` -/

/-- The trend results the loop computes for one station. -/
structure StationFits where
  station : String
  fit_before : Cell × Cell
  fit_after : Cell × Cell
  fit_gnss : Cell × Cell

/-- The inputs of one run of the per-station loop: the two coherence-filtered
InSAR dataframes with their epoch-column counts, the radius, and the glob
lookup of the GNSS file of a station (`none` when no file matches the
pattern, otherwise the classified lines of the first match). -/
structure BatchEnv where
  before_df : List InsarRow
  after_df : List InsarRow
  beforeEpochs : Nat
  afterEpochs : Nat
  radius : ℚ
  gnssFiles : String → Option (List GnssLine)

/-- The station loop of `plot_combined_time_series` (lines 148-217).  A
station without a GNSS file is skipped (`continue`, line 157).  Otherwise
the InSAR averages are computed, the GNSS file is loaded - an exception
there (the empty-data `ValueError` of `load_gnss_data`) is NOT caught and
propagates out of the loop, aborting every later station - and the three
trends are fitted, where an exception from `linregress` propagates the same
way.  Both InSAR fits use the x vector `range(len(time_dates))` built from
the BEFORE epoch columns (lines 187 and 196). -/
noncomputable def process_stations (env : BatchEnv) :
    List Station → Except String (List StationFits)
  | [] => .ok []
  | st :: rest =>
    match env.gnssFiles st.name with
    | none => process_stations env rest
    | some lines => do
      let before_displacement := find_insar_average_within_radius env.beforeEpochs
        env.before_df st.latitude st.longitude env.radius
      let after_displacement := find_insar_average_within_radius env.afterEpochs
        env.after_df st.latitude st.longitude env.radius
      let gnss ← load_gnss_data lines
      let fitB ← linregress (indicesQ env.beforeEpochs) before_displacement
      let fitA ← linregress (indicesQ env.beforeEpochs) after_displacement
      let fitG ← linregress (decimal_years gnss) ((gnss.map GnssRow.los).map some)
      let restFits ← process_stations env rest
      pure ({ station := st.name, fit_before := fitB, fit_after := fitA,
              fit_gnss := fitG } :: restFits)

/-! ## Concrete batch input used by several witnesses -/

/-- A station named AAAA whose GNSS file exists but contains no valid line,
a station BBBB with a well-formed two-sample GNSS file, and empty InSAR
dataframes with two epoch columns. -/
def envC2 : BatchEnv :=
  { before_df := []
    after_df := []
    beforeEpochs := 2
    afterEpochs := 2
    radius := 500
    gnssFiles := fun n =>
      if n = "AAAA" then some [.malformed]
      else if n = "BBBB" then
        some [.header, .valid ⟨59000, 0, 0, 0, 3⟩, .valid ⟨59001, 0, 0, 0, 5⟩]
      else none }

/-- The station whose GNSS file has no valid samples. -/
def stationA : Station := ⟨"AAAA", 0, 0⟩

/-- The station with a well-formed GNSS file. -/
def stationB : Station := ⟨"BBBB", 0, 0⟩

/-- Five measurement rows whose single-epoch velocities form the
distribution 1, 2, 3, 4, 100. -/
def exdf : List InsarRow :=
  [⟨0, 0, 1, [some 1], none⟩, ⟨0, 0, 1, [some 2], none⟩, ⟨0, 0, 1, [some 3], none⟩,
   ⟨0, 0, 1, [some 4], none⟩, ⟨0, 0, 1, [some 100], none⟩]

/-! ## Geometry lemmas -/

/-- The haversine distance of a point to itself is zero. -/
theorem haversine_self (lat lon : ℝ) :
    haversine_distance_vectorized lat lon lat lon = 0 := by
  simp only [haversine_distance_vectorized]
  rw [sub_self, sub_self]
  norm_num [arctan2, Real.arctan_zero]

/-- The haversine distance is symmetric in its two points. -/
theorem haversine_comm (plat plon tlat tlon : ℝ) :
    haversine_distance_vectorized plat plon tlat tlon =
      haversine_distance_vectorized tlat tlon plat plon := by
  have h1 : ∀ x y : ℝ, Real.sin ((x - y) / 2) ^ 2 = Real.sin ((y - x) / 2) ^ 2 := by
    intro x y
    rw [show (x - y) / 2 = -((y - x) / 2) by ring, Real.sin_neg, neg_sq]
  simp only [haversine_distance_vectorized]
  rw [h1 (toRadians tlat) (toRadians plat), h1 (toRadians tlon) (toRadians plon),
    mul_comm (Real.cos (toRadians plat)) (Real.cos (toRadians tlat))]

/-- On the equator the haversine formula reduces to arc length on the sphere
of radius 6371000: for a longitude difference below 180 degrees the distance
is the radius times the radian difference. -/
theorem haversine_equator (lon : ℝ) (h0 : 0 ≤ lon) (h1 : lon < 180) :
    haversine_distance_vectorized 0 0 0 lon = 6371000 * toRadians lon := by
  have hpi := Real.pi_pos
  have hd0 : 0 ≤ toRadians lon := by
    unfold toRadians; positivity
  have hdpi : toRadians lon < Real.pi := by
    unfold toRadians
    calc lon * (Real.pi / 180) < 180 * (Real.pi / 180) := by
          apply mul_lt_mul_of_pos_right h1; positivity
      _ = Real.pi := by ring
  have ht0 : 0 ≤ toRadians lon / 2 := by linarith
  have htpi2 : toRadians lon / 2 < Real.pi / 2 := by linarith
  have hsin : 0 ≤ Real.sin (toRadians lon / 2) :=
    Real.sin_nonneg_of_nonneg_of_le_pi ht0 (by linarith)
  have hcos : 0 < Real.cos (toRadians lon / 2) :=
    Real.cos_pos_of_mem_Ioo ⟨by linarith, htpi2⟩
  have hz : toRadians 0 = 0 := by simp [toRadians]
  simp only [haversine_distance_vectorized, hz]
  rw [sub_self, sub_zero]
  rw [show Real.sin (0 / 2) ^ 2 + Real.cos 0 * Real.cos 0 * Real.sin (toRadians lon / 2) ^ 2
        = Real.sin (toRadians lon / 2) ^ 2 by norm_num]
  rw [Real.sqrt_sq hsin,
    show (1 : ℝ) - Real.sin (toRadians lon / 2) ^ 2 = Real.cos (toRadians lon / 2) ^ 2 by
      rw [Real.cos_sq'],
    Real.sqrt_sq hcos.le]
  unfold arctan2
  rw [if_pos hcos, ← Real.tan_eq_sin_div_cos,
    Real.arctan_tan (by linarith) htpi2]
  ring

/-- C9: for every reference point P and target point T, the geodesic
distance function of the time-series path (the haversine formula with Earth
radius 6371000 m) satisfies distance(P, P) = 0 and distance(P, T) =
distance(T, P). -/
theorem geodesic_distance_zero_and_symmetric (plat plon tlat tlon : ℝ) :
    haversine_distance_vectorized plat plon plat plon = 0 ∧
    haversine_distance_vectorized plat plon tlat tlon =
      haversine_distance_vectorized tlat tlon plat plon :=
  ⟨haversine_self plat plon, haversine_comm plat plon tlat tlon⟩

/-- C3 counterexample: the two paths do NOT classify the same points.  For a
station at (0, 0) and a measurement point on the equator 0.004494 degrees of
longitude away, with the default 500 m radius, the time-series path (the
haversine routine on the sphere of radius 6371000 m, distance about 499.7 m)
includes the point, while the per-station velocity-map path (the external
WGS84 geodesic of geopy, distance about 500.3 m along the larger equatorial
radius 6378137 m) excludes it: its within-radius selection is empty. -/
theorem station_map_and_time_series_classify_differently :
    (⟨0, 2247/500000, 1, [some 0], none⟩ : InsarRow) ∈
      ts_within_radius [⟨0, 2247/500000, 1, [some 0], none⟩] 0 0 500 ∧
    stationWithin (fun _ lon => geopy_geodesic_equator 0 ((lon : ℚ) : ℝ)) 500
      [⟨0, 2247/500000, 1, [some 0], none⟩] = [] ∧
    (filter_within_radius (fun _ lon => geopy_geodesic_equator 0 ((lon : ℚ) : ℝ)) 500
      [⟨0, 2247/500000, 1, [some 0], none⟩]).2.1 = [] := by
  have hx : ((2247/500000 : ℚ) : ℝ) = 2247/500000 := by norm_num
  have h_hav : haversine_distance_vectorized ((0:ℚ) : ℝ) ((0:ℚ) : ℝ)
      ((0:ℚ) : ℝ) ((2247/500000 : ℚ) : ℝ) ≤ ((500:ℚ) : ℝ) := by
    rw [hx]
    push_cast
    rw [haversine_equator (2247/500000) (by norm_num) (by norm_num)]
    unfold toRadians
    nlinarith [Real.pi_lt_d6]
  have h_geo : (500 : ℝ) < geopy_geodesic_equator 0 (2247/500000) := by
    unfold geopy_geodesic_equator wgs84_a toRadians
    rw [show ((2247:ℝ)/500000) * (Real.pi / 180) - 0 * (Real.pi / 180)
          = 2247/500000 * (Real.pi / 180) by ring,
      abs_of_nonneg (by positivity)]
    nlinarith [Real.pi_gt_d6]
  have hw : stationWithin (fun _ lon => geopy_geodesic_equator 0 ((lon : ℚ) : ℝ)) 500
      [⟨0, 2247/500000, 1, [some 0], none⟩] = [] := by
    simp only [stationWithin, writeDistances, List.map_cons, List.map_nil]
    rw [List.filter_cons]
    simp only [Option.getD_some]
    norm_num
    exact h_geo
  refine ⟨List.mem_filter.mpr ⟨by simp, by simpa using h_hav⟩, hw, ?_⟩
  simp only [filter_within_radius, hw]
  rfl

/-- C3 amended: the two vectorized haversine routines of the time-series
path (`haversine_distance_vectorized` and the local `fast_haversine`)
compute identical distances and therefore classify identical inclusion and
exclusion sets for every station, radius and point; the per-station
velocity-map routine, which calls the external WGS84 geodesic instead, is
NOT classification-equivalent to them (see the counterexample). -/
theorem vectorized_haversine_routines_agree (slat slon plat plon radius : ℝ) :
    fast_haversine slat slon (plat, plon) =
      haversine_distance_vectorized slat slon plat plon ∧
    (fast_haversine slat slon (plat, plon) ≤ radius ↔
      haversine_distance_vectorized slat slon plat plon ≤ radius) :=
  ⟨rfl, Iff.rfl⟩

/-- C6: the Spatial Matcher keeps exactly the rows whose haversine distance
to the station is at most the radius - so a point at distance exactly R is
included - and returns the empty subset when every point is strictly
farther than R. -/
theorem spatial_matcher_exact_subset (df : List InsarRow) (slat slon radius : ℚ) :
    (∀ p, p ∈ ts_within_radius df slat slon radius ↔
      p ∈ df ∧ haversine_distance_vectorized (slat : ℝ) (slon : ℝ)
        (p.latitude : ℝ) (p.longitude : ℝ) ≤ (radius : ℝ)) ∧
    ((∀ p ∈ df, (radius : ℝ) < haversine_distance_vectorized (slat : ℝ) (slon : ℝ)
        (p.latitude : ℝ) (p.longitude : ℝ)) →
      ts_within_radius df slat slon radius = []) := by
  constructor
  · intro p
    simp [ts_within_radius, List.mem_filter]
  · intro h
    rw [ts_within_radius, List.filter_eq_nil_iff]
    intro p hp
    simpa using not_le.mpr (h p hp)

/-- Witness for C6: a row at the station location is selected (its distance
is 0), and a row 90 degrees of longitude away is not selected within 500 m,
giving the empty subset. -/
theorem spatial_matcher_exact_subset_witness :
    (⟨0, 0, 1, [some 1], none⟩ : InsarRow) ∈
      ts_within_radius [⟨0, 0, 1, [some 1], none⟩] 0 0 500 ∧
    ts_within_radius [⟨0, 90, 1, [some 1], none⟩] 0 0 500 = [] := by
  constructor
  · exact ((spatial_matcher_exact_subset [⟨0, 0, 1, [some 1], none⟩] 0 0 500).1 _).mpr
      ⟨by simp, by simpa using (haversine_self 0 0).le.trans (by norm_num)⟩
  · apply (spatial_matcher_exact_subset [⟨0, 90, 1, [some 1], none⟩] 0 0 500).2
    intro p hp
    rw [List.mem_singleton] at hp
    subst hp
    push_cast
    rw [haversine_equator 90 (by norm_num) (by norm_num)]
    unfold toRadians
    nlinarith [Real.pi_gt_three]

/-! ## Temporal averaging -/

/-- A NaN mean means no value was present. -/
theorem nanMean_eq_none_iff (l : List Cell) :
    nanMean l = none ↔ l.filterMap id = [] := by
  unfold nanMean
  by_cases he : (l.filterMap id).isEmpty
  · rw [if_pos he]
    exact iff_of_true rfl (by simpa using he)
  · rw [if_neg he]
    constructor
    · intro h; exact absurd h (by simp)
    · intro h; exact absurd (by simp [h]) he

/-- A mean that is present determines a nonempty list of present values and
is their sum divided by their count. -/
theorem nanMean_eq_some {vs : List Cell} {m : ℚ} (h : nanMean vs = some m) :
    vs.filterMap id ≠ [] ∧
    m * ((vs.filterMap id).length : ℚ) = (vs.filterMap id).sum := by
  unfold nanMean at h
  by_cases he : (vs.filterMap id).isEmpty
  · rw [if_pos he] at h
    exact absurd h (by simp)
  · rw [if_neg he] at h
    have hnil : vs.filterMap id ≠ [] := by
      intro hn; simp [hn] at he
    refine ⟨hnil, ?_⟩
    have hlen : ((vs.filterMap id).length : ℚ) ≠ 0 :=
      Nat.cast_ne_zero.mpr (fun h0 => hnil (List.length_eq_zero.mp h0))
    rw [← Option.some_inj.mp h, div_mul_cancel₀ _ hlen]

/-- C7: the Temporal Averager.  For the empty subset the mean at every epoch
is NaN; for a single row it returns the own cell of that row unchanged at every
epoch (present or missing); in general the mean at an epoch is NaN exactly
when no row has a present value there, and a present mean is the arithmetic
mean of exactly the present values (missing cells excluded from numerator
and count alike). -/
theorem temporal_averager_mean_of_present (pts : List InsarRow) (e : Nat) :
    (epochMean [] e = none) ∧
    (∀ p : InsarRow, epochMean [p] e = p.values.getD e none) ∧
    (epochMean pts e = none ↔ ∀ p ∈ pts, p.values.getD e none = none) ∧
    (∀ m, epochMean pts e = some m →
      pts.filterMap (fun p => p.values.getD e none) ≠ [] ∧
      m * ((pts.filterMap (fun p => p.values.getD e none)).length : ℚ) =
        (pts.filterMap (fun p => p.values.getD e none)).sum) := by
  have hfm : ∀ (l : List InsarRow),
      (l.map (fun p => p.values.getD e none)).filterMap id =
        l.filterMap (fun p => p.values.getD e none) := by
    intro l
    rw [List.filterMap_map]
    rfl
  refine ⟨rfl, ?_, ?_, ?_⟩
  · intro p
    cases h : p.values.getD e none with
    | none =>
      simp only [epochMean, List.map_cons, List.map_nil, h]
      rfl
    | some v =>
      simp only [epochMean, List.map_cons, List.map_nil, h]
      show nanMean [some v] = some v
      simp [nanMean]
  · rw [epochMean, nanMean_eq_none_iff, hfm, List.filterMap_eq_nil_iff]
  · intro m h
    have h' : nanMean (pts.map (fun p => p.values.getD e none)) = some m := h
    have h2 := nanMean_eq_some h'
    rwa [hfm] at h2

unseal Rat.inv Rat.add Rat.mul Rat.sub Rat.ofScientific in
/-- Witness for C7: over two rows with values 3 and 5 at epoch 0 the mean 4
satisfies count-weighted balance, a singleton subset reproduces its own
cell, and the empty subset gives NaN. -/
theorem temporal_averager_mean_of_present_witness :
    epochMean [] 0 = none ∧
    epochMean [⟨0, 0, 1, [some 3, none], none⟩] 1 = none ∧
    (4 : ℚ) * ((([⟨0, 0, 1, [some 3], none⟩, ⟨0, 0, 1, [some 5], none⟩] :
        List InsarRow).filterMap (fun p => p.values.getD 0 none)).length : ℚ) =
      (([⟨0, 0, 1, [some 3], none⟩, ⟨0, 0, 1, [some 5], none⟩] :
        List InsarRow).filterMap (fun p => p.values.getD 0 none)).sum := by
  refine ⟨(temporal_averager_mean_of_present [] 0).1,
    ((temporal_averager_mean_of_present [] 1).2.1 ⟨0, 0, 1, [some 3, none], none⟩).trans (by decide),
    ((temporal_averager_mean_of_present
      [⟨0, 0, 1, [some 3], none⟩, ⟨0, 0, 1, [some 5], none⟩] 0).2.2.2 4 (by decide)).2⟩

/-! ## Trend fitting: insufficient data -/

/-- An all-present list of cells sequences to its values. -/
theorem seqCells_map_some (ys : List ℚ) : seqCells (ys.map some) = some ys := by
  induction ys with
  | nil => rfl
  | cons v t ih => simp [seqCells, ih]

/-- A successful sequencing means every cell was present. -/
theorem seqCells_eq_some {y : List Cell} {ys : List ℚ} (h : seqCells y = some ys) :
    y = ys.map some := by
  induction y generalizing ys with
  | nil =>
    simp only [seqCells, Option.some.injEq] at h
    simp [← h]
  | cons c t ih =>
    cases c with
    | none => simp [seqCells] at h
    | some v =>
      simp only [seqCells] at h
      cases ht : seqCells t with
      | none => rw [ht] at h; simp at h
      | some l =>
        rw [ht] at h
        simp only [Option.map_some', Option.some.injEq] at h
        rw [← h, List.map_cons, ← ih ht]

/-- Removing the `some` wrappers of an all-present list. -/
theorem filterMap_id_map_some (ys : List ℚ) : (ys.map some).filterMap id = ys := by
  induction ys with
  | nil => rfl
  | cons v t ih => simp [ih]

/-- A numeric (non-NaN) slope can only come out of a regression over at
least two data points, all of them present. -/
theorem linregress_ok_some {x : List ℚ} {y : List Cell} {s : ℚ} {b : Cell}
    (h : linregress x y = .ok (some s, b)) :
    2 ≤ x.length ∧ 2 ≤ (y.filterMap id).length := by
  unfold linregress at h
  by_cases h1 : x.isEmpty ∨ y.isEmpty
  · rw [if_pos h1] at h; exact absurd h (by simp)
  rw [if_neg h1] at h
  by_cases h2 : allSame x ∧ 1 < x.length
  · rw [if_pos h2] at h; exact absurd h (by simp)
  rw [if_neg h2] at h
  by_cases h3 : x.length ≠ y.length
  · rw [if_pos h3] at h; exact absurd h (by simp)
  rw [if_neg h3] at h
  push_neg at h3
  cases hseq : seqCells y with
  | none => rw [hseq] at h; exact absurd h (by simp)
  | some ys =>
    rw [hseq] at h
    simp only [nanDiv] at h
    split_ifs at h with hz
    · exact absurd h (by simp)
    have hy : y = ys.map some := seqCells_eq_some hseq
    match x, h1, h2, h3, hz with
    | [], h1, _, _, _ => exact absurd (Or.inl rfl) h1
    | [a], _, _, _, hz => norm_num at hz
    | a :: c :: t, _, _, h3, _ =>
      refine ⟨by simp, ?_⟩
      rw [hy, filterMap_id_map_some]
      have hxy : (a :: c :: t).length = ys.length := by
        rw [h3, hy, List.length_map]
      rw [← hxy]
      simp

unseal Rat.inv Rat.add Rat.mul Rat.sub Rat.ofScientific in
/-- C1 counterexample: a series with fewer than 2 valid points is NOT
rejected with an insufficient-data condition.  A single-point series, and a
several-epoch series with no valid (non-NaN) value at all, both make
`linregress` return NaN slope and intercept without raising, and the caller
plots them. -/
theorem trend_fitter_below_two_points_not_rejected :
    linregress [0] [some 5] = .ok (none, none) ∧
    linregress (indicesQ 3) [none, none, none] = .ok (none, none) := by
  constructor
  · rfl
  · rfl

/-- C1 amended: with zero points the fit is rejected by an error; with
exactly one point, and in general whenever fewer than 2 valid points are
present, the result is NaN slope and intercept rather than a rejection; a
numeric slope is produced only when at least 2 points, all valid, are
available. -/
theorem trend_fitter_insufficient_data (x : List ℚ) (y : List Cell) :
    (x = [] ∨ y = [] → linregress x y = .error "Inputs must not be empty.") ∧
    (x.length = 1 → y.length = 1 → linregress x y = .ok (none, none)) ∧
    (∀ s b, linregress x y = .ok (some s, b) →
      2 ≤ x.length ∧ 2 ≤ (y.filterMap id).length) := by
  refine ⟨?_, ?_, fun s b h => linregress_ok_some h⟩
  · intro h
    unfold linregress
    rw [if_pos]
    rcases h with h | h <;> simp [h]
  · intro hx hy
    obtain ⟨a, rfl⟩ := List.length_eq_one.mp hx
    obtain ⟨c, rfl⟩ := List.length_eq_one.mp hy
    cases c with
    | none => rfl
    | some w =>
      unfold linregress
      rw [if_neg (by simp), if_neg (by simp), if_neg (by simp)]
      show (match seqCells [some w] with
        | none => Except.ok (none, none)
        | some ys => _) = Except.ok (none, none)
      rw [show seqCells [some w] = some [w] from rfl]
      simp only [nanDiv]
      norm_num

unseal Rat.inv Rat.add Rat.mul Rat.sub Rat.ofScientific in
/-- Witness for C1 amended: the empty series is rejected, a one-point
series gives NaN, and a clean two-point series has at least 2 points. -/
theorem trend_fitter_insufficient_data_witness :
    linregress ([] : List ℚ) [] = .error "Inputs must not be empty." ∧
    linregress [(7 : ℚ)] [some 9] = .ok (none, none) ∧
    2 ≤ ([0, 1] : List ℚ).length :=
  ⟨(trend_fitter_insufficient_data [] []).1 (Or.inl rfl),
   (trend_fitter_insufficient_data [7] [some 9]).2.1 rfl rfl,
   ((trend_fitter_insufficient_data [0, 1] [some 3, some 5]).2.2 2 (some 3) (by rfl)).1⟩

/-! ## The station loop: failure containment -/

unseal Rat.inv Rat.add Rat.mul Rat.sub Rat.ofScientific in
/-- C2 counterexample: an empty GNSS dataset does NOT merely skip its
station - it halts the whole batch.  Station AAAA has a GNSS file with no
valid line, station BBBB is fully well-formed; processing [AAAA, BBBB]
aborts with the uncaught empty-data error and BBBB is never processed,
although BBBB alone would have produced its fits. -/
theorem batch_halts_on_empty_gnss_dataset :
    process_stations envC2 [stationA, stationB] =
      .error "GNSS file contains no valid MJD data." ∧
    process_stations envC2 [stationB] =
      .ok [⟨"BBBB", (none, none), (none, none), (some (1461/2), some 3)⟩] := by
  constructor
  · rfl
  · rfl

/-- C2 amended: a missing GNSS file causes only that station to be skipped
and processing continues with the remaining stations; but a GNSS series
with no valid samples raises an uncaught error that halts the whole batch,
so the containment claimed for empty datasets does not hold. -/
theorem station_failure_containment (env : BatchEnv) (st : Station)
    (rest : List Station) :
    (env.gnssFiles st.name = none →
      process_stations env (st :: rest) = process_stations env rest) ∧
    (∀ lines, env.gnssFiles st.name = some lines → parsedRows lines = [] →
      process_stations env (st :: rest) =
        .error "GNSS file contains no valid MJD data.") := by
  constructor
  · intro h
    simp only [process_stations, h]
  · intro lines hl hrows
    simp only [process_stations, hl]
    have hload : load_gnss_data lines = .error "GNSS file contains no valid MJD data." := by
      unfold load_gnss_data
      rw [hrows]
      rfl
    rw [hload]
    rfl

unseal Rat.inv Rat.add Rat.mul Rat.sub Rat.ofScientific in
/-- Witness for C2 amended: a station with no matching GNSS file is skipped
and the (empty) remainder still completes, while station AAAA with an
all-invalid GNSS file halts the batch. -/
theorem station_failure_containment_witness :
    process_stations envC2 [⟨"CCCC", 0, 0⟩] = .ok [] ∧
    process_stations envC2 [stationA] = .error "GNSS file contains no valid MJD data." :=
  ⟨((station_failure_containment envC2 ⟨"CCCC", 0, 0⟩ []).1 rfl).trans rfl,
   (station_failure_containment envC2 stationA []).2 [.malformed] rfl rfl⟩

/-! ## Purity of the components -/

/-- C4 counterexample: `filter_within_radius` does NOT leave its input
dataset unchanged - it writes a `distance` column into it.  On a one-row
dataframe with no distance column, the dataframe after the call differs
from the dataframe before it. -/
theorem filter_within_radius_mutates_input :
    (filter_within_radius (fun _ _ => (0 : ℝ)) 500 [⟨0, 0, 1, [some 1], none⟩]).1 ≠
      [⟨0, 0, 1, [some 1], none⟩] := by
  intro h
  have h1 : (filter_within_radius (fun _ _ => (0 : ℝ)) 500
      [⟨0, 0, 1, [some 1], none⟩]).1 = [⟨0, 0, 1, [some 1], some 0⟩] := rfl
  rw [h1] at h
  simp [InsarRow.mk.injEq] at h

/-- C4 amended: the mutation is invisible in later results.  The distance
column is overwritten by every call from the coordinate columns alone and is
never read as an epoch column, so running `filter_within_radius` for a first
station and then a second produces for the second exactly the return value
it would produce on the pristine dataframe; the remaining components are
plain functions of their inputs. -/
theorem filter_within_radius_overwrite (geodA geodB : ℚ → ℚ → ℝ)
    (radius : ℚ) (df : List InsarRow) :
    (filter_within_radius geodB radius (filter_within_radius geodA radius df).1).2 =
      (filter_within_radius geodB radius df).2 := by
  have hw : writeDistances geodB (writeDistances geodA df) = writeDistances geodB df := by
    unfold writeDistances
    rw [List.map_map]
    rfl
  show (filter_within_radius geodB radius (writeDistances geodA df)).2 = _
  simp only [filter_within_radius, stationWithin, hw]

/-! ## The coherence threshold -/

/-- C10: the minimum-temporal-coherence threshold acts only on the
time-series path.  A low-coherence row is excluded from the filtered
dataframes of `plot_combined_time_series`, yet the regional and per-station
velocity maps receive the raw dataframes unchanged, so the same row (and its
velocity, which enters the quantile and outlier computation of the maps)
still participates there. -/
theorem coherence_threshold_only_time_series (c : ℚ) (before after : List InsarRow)
    (p : InsarRow) (hp : p ∈ before) (hc : p.temporal_coherence < c) :
    (main_flow c before after).tsBefore = coherenceFilter c before ∧
    (main_flow c before after).tsAfter = coherenceFilter c after ∧
    p ∉ (main_flow c before after).tsBefore ∧
    (main_flow c before after).regionalBefore = before ∧
    (main_flow c before after).regionalAfter = after ∧
    (main_flow c before after).stationBefore = before ∧
    (main_flow c before after).stationAfter = after ∧
    rowVelocity p ∈ (main_flow c before after).regionalBefore.map rowVelocity := by
  refine ⟨rfl, rfl, ?_, rfl, rfl, rfl, rfl, List.mem_map_of_mem _ hp⟩
  intro hmem
  rw [show (main_flow c before after).tsBefore = coherenceFilter c before from rfl,
    coherenceFilter, List.mem_filter] at hmem
  exact absurd (of_decide_eq_true hmem.2) (not_le.mpr hc)

unseal Rat.inv Rat.add Rat.mul Rat.sub Rat.ofScientific in
/-- Witness for C10: a row with coherence 0.5 under threshold 0.7 is dropped
from the time-series input but kept, untouched, in the regional-map input. -/
theorem coherence_threshold_only_time_series_witness :
    (⟨0, 0, 1/2, [some 1], none⟩ : InsarRow) ∉
      (main_flow (7/10) [⟨0, 0, 1/2, [some 1], none⟩] []).tsBefore ∧
    (main_flow (7/10) [⟨0, 0, 1/2, [some 1], none⟩] []).regionalBefore =
      [⟨0, 0, 1/2, [some 1], none⟩] := by
  have h := coherence_threshold_only_time_series (7/10) [⟨0, 0, 1/2, [some 1], none⟩] []
    ⟨0, 0, 1/2, [some 1], none⟩ (List.mem_singleton.mpr rfl)
    (show (1 : ℚ)/2 < 7/10 by norm_num)
  exact ⟨h.2.2.1, h.2.2.2.1⟩

/-! ## The outlier filter -/

/-- Membership in a velocity-bounds selection: the row is kept exactly when
its velocity is present and lies inside the closed bounds. -/
theorem mem_filter_velocityInBounds {lower upper : ℚ} {l : List InsarRow}
    (p : InsarRow) :
    p ∈ l.filter (velocityInBounds lower upper) ↔
      p ∈ l ∧ ∃ v, rowVelocity p = some v ∧ lower ≤ v ∧ v ≤ upper := by
  rw [List.mem_filter]
  refine and_congr_right (fun _ => ?_)
  cases h : rowVelocity p with
  | none => simp [velocityInBounds, h]
  | some v => simp [velocityInBounds, h]

unseal Rat.inv Rat.add Rat.mul Rat.sub Rat.ofScientific in
/-- C5: the Outlier Filter retains exactly the rows whose per-point mean
velocity lies in the closed interval `[Q1 - k*IQR, Q3 + k*IQR]` around the
linearly interpolated quartiles, in original relative order (a filter of the
input), with `k = 2.0` at the regional-map call site (`filter_normal_points`)
and `k = 1.5` at the per-station call site (`filter_within_radius`); on the
velocity distribution 1, 2, 3, 4, 100 the per-station rule removes 100 and
retains 1, 2, 3, 4. -/
theorem outlier_filter_iqr :
    (∀ (df : List InsarRow) (q1 q3 : ℚ),
      quantile (df.map rowVelocity) (1/4) = some q1 →
      quantile (df.map rowVelocity) (3/4) = some q3 →
      (filter_normal_points df).1 =
        df.filter (velocityInBounds (q1 - 2.0 * (q3 - q1)) (q3 + 2.0 * (q3 - q1))) ∧
      (∀ p, p ∈ (filter_normal_points df).1 ↔ p ∈ df ∧
        ∃ v, rowVelocity p = some v ∧
          q1 - 2.0 * (q3 - q1) ≤ v ∧ v ≤ q3 + 2.0 * (q3 - q1)) ∧
      (filter_normal_points df).2 =
        keptVelocities (df.map rowVelocity)
          (q1 - 2.0 * (q3 - q1)) (q3 + 2.0 * (q3 - q1))) ∧
    (∀ (geod : ℚ → ℚ → ℝ) (radius : ℚ) (df : List InsarRow) (q1 q3 : ℚ),
      quantile ((stationWithin geod radius df).map rowVelocity) (1/4) = some q1 →
      quantile ((stationWithin geod radius df).map rowVelocity) (3/4) = some q3 →
      (filter_within_radius geod radius df).2.1 =
        (stationWithin geod radius df).filter
          (velocityInBounds (q1 - 1.5 * (q3 - q1)) (q3 + 1.5 * (q3 - q1))) ∧
      (∀ p, p ∈ (filter_within_radius geod radius df).2.1 ↔
        p ∈ stationWithin geod radius df ∧
        ∃ v, rowVelocity p = some v ∧
          q1 - 1.5 * (q3 - q1) ≤ v ∧ v ≤ q3 + 1.5 * (q3 - q1)) ∧
      (filter_within_radius geod radius df).2.2 =
        keptVelocities ((stationWithin geod radius df).map rowVelocity)
          (q1 - 1.5 * (q3 - q1)) (q3 + 1.5 * (q3 - q1))) ∧
    (filter_within_radius (fun _ _ => (0 : ℝ)) 500 exdf).2.2 = [1, 2, 3, 4] := by
  refine ⟨?_, ?_, ?_⟩
  · intro df q1 q3 h1 h3
    have he : (filter_normal_points df).1 =
        df.filter (velocityInBounds (q1 - 2.0 * (q3 - q1)) (q3 + 2.0 * (q3 - q1))) := by
      simp only [filter_normal_points, h1, h3]
    refine ⟨he, ?_, by simp only [filter_normal_points, h1, h3]⟩
    intro p
    rw [he]
    exact mem_filter_velocityInBounds p
  · intro geod radius df q1 q3 h1 h3
    have he : (filter_within_radius geod radius df).2.1 =
        (stationWithin geod radius df).filter
          (velocityInBounds (q1 - 1.5 * (q3 - q1)) (q3 + 1.5 * (q3 - q1))) := by
      simp only [filter_within_radius, h1, h3]
    refine ⟨he, ?_, by simp only [filter_within_radius, h1, h3]⟩
    intro p
    rw [he]
    exact mem_filter_velocityInBounds p
  · have hmut : writeDistances (fun _ _ => (0 : ℝ)) exdf =
        [⟨0, 0, 1, [some 1], some 0⟩, ⟨0, 0, 1, [some 2], some 0⟩,
         ⟨0, 0, 1, [some 3], some 0⟩, ⟨0, 0, 1, [some 4], some 0⟩,
         ⟨0, 0, 1, [some 100], some 0⟩] := rfl
    have hwithin : stationWithin (fun _ _ => (0 : ℝ)) 500 exdf =
        writeDistances (fun _ _ => (0 : ℝ)) exdf := by
      unfold stationWithin
      apply List.filter_eq_self.mpr
      intro p hp
      unfold writeDistances at hp
      obtain ⟨q, _, rfl⟩ := List.mem_map.mp hp
      apply decide_eq_true
      show (0 : ℝ) ≤ ((500 : ℚ) : ℝ)
      push_cast
      norm_num
    simp only [filter_within_radius, hwithin, hmut]
    rfl

unseal Rat.inv Rat.add Rat.mul Rat.sub Rat.ofScientific in
/-- Witness for C5: on the distribution 1, 2, 3, 4, 100 the quartiles are 2
and 4, the regional k = 2.0 bounds are [-2, 8], and the retained velocities
are exactly 1, 2, 3, 4 in order. -/
theorem outlier_filter_iqr_witness :
    (filter_normal_points exdf).2 =
      keptVelocities (exdf.map rowVelocity) (-2) 8 ∧
    (filter_normal_points exdf).2 = [1, 2, 3, 4] := by
  have h := (outlier_filter_iqr).1 exdf 2 4 (by rfl) (by rfl)
  have hb : (2 : ℚ) - 2.0 * (4 - 2) = -2 := by norm_num
  have hu : (4 : ℚ) + 2.0 * (4 - 2) = 8 := by norm_num
  have h2 := h.2.2
  rw [hb, hu] at h2
  exact ⟨h2, h2.trans (by rfl)⟩

/-! ## Ordinary least squares -/

/-- A sum of squares is nonnegative. -/
theorem sum_sq_nonneg (l : List (ℚ × ℚ)) (f : ℚ × ℚ → ℚ) :
    0 ≤ (l.map (fun p => f p ^ 2)).sum := by
  induction l with
  | nil => simp
  | cons p t ih =>
    simp only [List.map_cons, List.sum_cons]
    exact add_nonneg (sq_nonneg _) ih

/-- Expansion of the residual sum against the raw sums. -/
theorem resid_sum (l : List (ℚ × ℚ)) (s b : ℚ) :
    (l.map (fun p => p.2 - (s * p.1 + b))).sum =
      (l.map Prod.snd).sum - s * (l.map Prod.fst).sum - b * l.length := by
  induction l with
  | nil => simp
  | cons p t ih =>
    simp only [List.map_cons, List.sum_cons, List.length_cons, ih]
    push_cast
    ring

/-- Expansion of the x-weighted residual sum against the raw sums. -/
theorem residx_sum (l : List (ℚ × ℚ)) (s b : ℚ) :
    (l.map (fun p => (p.2 - (s * p.1 + b)) * p.1)).sum =
      (l.map (fun p => p.1 * p.2)).sum - s * (l.map (fun p => p.1 ^ 2)).sum -
        b * (l.map Prod.fst).sum := by
  induction l with
  | nil => simp
  | cons p t ih =>
    simp only [List.map_cons, List.sum_cons, ih]
    ring

/-- Shifting the fitted line changes the residual sum of squares by the two
normal-equation sums and a nonnegative square term. -/
theorem rss_shift (l : List (ℚ × ℚ)) (s b c d : ℚ) :
    rss l (s + c) (b + d) = rss l s b
      - 2 * c * (l.map (fun p => (p.2 - (s * p.1 + b)) * p.1)).sum
      - 2 * d * (l.map (fun p => p.2 - (s * p.1 + b))).sum
      + (l.map (fun p => (c * p.1 + d) ^ 2)).sum := by
  induction l with
  | nil => simp [rss]
  | cons p t ih =>
    simp only [rss, List.map_cons, List.sum_cons] at ih ⊢
    linear_combination ih

/-- Centered second moment against the raw sums. -/
theorem centered_sq_sum (xl : List ℚ) (m : ℚ) :
    (xl.map (fun v => (v - m) ^ 2)).sum =
      (xl.map (fun v => v ^ 2)).sum - 2 * m * xl.sum + xl.length * m ^ 2 := by
  induction xl with
  | nil => simp
  | cons v t ih =>
    simp only [List.map_cons, List.sum_cons, List.length_cons, ih]
    push_cast
    ring

/-- Centered mixed moment against the raw sums. -/
theorem centered_mul_sum (l : List (ℚ × ℚ)) (mx my : ℚ) :
    (l.map (fun p => (p.1 - mx) * (p.2 - my))).sum =
      (l.map (fun p => p.1 * p.2)).sum - my * (l.map Prod.fst).sum -
        mx * (l.map Prod.snd).sum + l.length * (mx * my) := by
  induction l with
  | nil => simp
  | cons p t ih =>
    simp only [List.map_cons, List.sum_cons, List.length_cons, ih]
    push_cast
    ring

/-- The scalar algebra of the normal equations: with the centered moments
`A` and `B` expanded over raw sums, slope `B / A` and intercept
`ymean - slope * xmean` annihilate both normal-equation sums. -/
theorem ols_normal_scalar (n X Y P Q A B s b : ℚ) (hn : n ≠ 0)
    (hA : A = (Q - 2 * (X / n) * X + n * (X / n) ^ 2) / n)
    (hB : B = (P - (Y / n) * X - (X / n) * Y + n * ((X / n) * (Y / n))) / n)
    (hz : A ≠ 0) (hs : B / A = s) (hb : Y / n - s * (X / n) = b) :
    Y - s * X - b * n = 0 ∧ P - s * Q - b * X = 0 := by
  have hBA : B = s * A := by
    rw [← hs, div_mul_cancel₀ _ hz]
  have h1 : B * n = P - X * Y / n := by
    rw [hB, div_mul_cancel₀ _ hn]
    field_simp
    ring
  have h2 : A * n = Q - X ^ 2 / n := by
    rw [hA, div_mul_cancel₀ _ hn]
    field_simp
    ring
  have key : P * n - X * Y = s * (Q * n - X ^ 2) := by
    calc P * n - X * Y = B * n * n := by
          rw [h1]; field_simp
      _ = s * (A * n * n) := by rw [hBA]; ring
      _ = s * (Q * n - X ^ 2) := by rw [h2]; field_simp
  constructor
  · rw [← hb]
    field_simp
  · rw [← hb]
    have goal' : P - s * Q - (Y / n - s * (X / n)) * X =
        (P * n - X * Y - s * (Q * n - X ^ 2)) / n := by
      field_simp
      ring
    rw [goal', key, sub_self, zero_div]

/-- The slope and intercept of a successful numeric `linregress` fit
minimise the residual sum of squares: the fit is ordinary least squares. -/
theorem linregress_ols {x ys : List ℚ} {s b : ℚ}
    (h : linregress x (ys.map some) = .ok (some s, some b)) :
    ∀ t c : ℚ, rss (x.zip ys) s b ≤ rss (x.zip ys) t c := by
  unfold linregress at h
  by_cases h1 : x.isEmpty ∨ (ys.map some).isEmpty
  · rw [if_pos h1] at h; exact absurd h (by simp)
  rw [if_neg h1] at h
  by_cases h2 : allSame x ∧ 1 < x.length
  · rw [if_pos h2] at h; exact absurd h (by simp)
  rw [if_neg h2] at h
  by_cases h3 : x.length ≠ (ys.map some).length
  · rw [if_pos h3] at h; exact absurd h (by simp)
  rw [if_neg h3] at h
  push_neg at h3
  rw [List.length_map] at h3
  rw [seqCells_map_some] at h
  simp only [nanDiv] at h
  split_ifs at h with hz
  · exact absurd h (by simp)
  simp only [Except.ok.injEq, Prod.mk.injEq, Option.some.injEq] at h
  obtain ⟨hs, hb⟩ := h
  rw [hs] at hb
  have hx0 : x ≠ [] := by
    intro hx
    rw [hx] at h1
    exact h1 (Or.inl rfl)
  have hn : ((x.length : ℚ)) ≠ 0 :=
    Nat.cast_ne_zero.mpr (fun h0 => hx0 (List.length_eq_zero.mp h0))
  have hfst : (x.zip ys).map Prod.fst = x := List.map_fst_zip x ys (le_of_eq h3)
  have hsnd : (x.zip ys).map Prod.snd = ys := List.map_snd_zip x ys (le_of_eq h3.symm)
  have hlen : ((x.zip ys).length : ℚ) = (x.length : ℚ) := by
    have : (x.zip ys).length = x.length := by
      rw [List.length_zip]
      omega
    exact_mod_cast congrArg (Nat.cast : Nat → ℚ) this
  have hxsq : (x.map (fun v => v ^ 2)).sum = ((x.zip ys).map (fun p => p.1 ^ 2)).sum := by
    conv_lhs => rw [← hfst]
    rw [List.map_map]
    rfl
  have hA : (x.map (fun v => (v - x.sum / (x.length : ℚ)) ^ 2)).sum / (x.length : ℚ) =
      (((x.zip ys).map (fun p => p.1 ^ 2)).sum
        - 2 * (x.sum / (x.length : ℚ)) * x.sum
        + (x.length : ℚ) * (x.sum / (x.length : ℚ)) ^ 2) / (x.length : ℚ) := by
    rw [centered_sq_sum, hxsq]
  have hB : ((x.zip ys).map (fun p =>
        (p.1 - x.sum / (x.length : ℚ)) * (p.2 - ys.sum / (x.length : ℚ)))).sum / (x.length : ℚ) =
      (((x.zip ys).map (fun p => p.1 * p.2)).sum
        - (ys.sum / (x.length : ℚ)) * x.sum
        - (x.sum / (x.length : ℚ)) * ys.sum
        + (x.length : ℚ) * ((x.sum / (x.length : ℚ)) * (ys.sum / (x.length : ℚ)))) / (x.length : ℚ) := by
    rw [centered_mul_sum, hfst, hsnd, hlen]
  have hnormal := ols_normal_scalar (x.length : ℚ) x.sum ys.sum
    ((x.zip ys).map (fun p => p.1 * p.2)).sum
    ((x.zip ys).map (fun p => p.1 ^ 2)).sum
    ((x.map (fun v => (v - x.sum / (x.length : ℚ)) ^ 2)).sum / (x.length : ℚ))
    (((x.zip ys).map (fun p =>
      (p.1 - x.sum / (x.length : ℚ)) * (p.2 - ys.sum / (x.length : ℚ)))).sum / (x.length : ℚ))
    s b hn hA hB hz hs hb
  have hN1 : ((x.zip ys).map (fun p => p.2 - (s * p.1 + b))).sum = 0 := by
    rw [resid_sum, hfst, hsnd, hlen]
    exact hnormal.1
  have hN2 : ((x.zip ys).map (fun p => (p.2 - (s * p.1 + b)) * p.1)).sum = 0 := by
    rw [residx_sum, hfst]
    exact hnormal.2
  intro t c
  have hshift := rss_shift (x.zip ys) s b (t - s) (c - b)
  rw [show s + (t - s) = t by ring, show b + (c - b) = c by ring, hN1, hN2] at hshift
  have hnn := sum_sq_nonneg (x.zip ys) (fun p => (t - s) * p.1 + (c - b))
  rw [hshift]
  linarith [hnn]

/-- C8: the Trend Fitter inputs and method.  The x vector of the InSAR fits
is the 0-based epoch index (entry k of `range(len(time_dates))` is k, so
epochs are treated as equally spaced); the x vector of the GNSS fit is
`decimal_year`, elapsed time since the first sample divided by 365.25 days;
and in both cases a successful numeric fit is ordinary least squares: its
slope and intercept minimise the residual sum of squares. -/
theorem trend_fitter_x_inputs_and_ols :
    (∀ (r0 : GnssRow) (rest : List GnssRow),
      decimal_years (r0 :: rest) =
        (r0 :: rest).map (fun r => (r.mjd - r0.mjd) / 365.25)) ∧
    (∀ E i, i < E → (indicesQ E).getD i 0 = (i : ℚ)) ∧
    (∀ (x ys : List ℚ) (s b : ℚ),
      linregress x (ys.map some) = .ok (some s, some b) →
      ∀ t c : ℚ, rss (x.zip ys) s b ≤ rss (x.zip ys) t c) := by
  refine ⟨?_, ?_, fun x ys s b h => linregress_ols h⟩
  · intro r0 rest
    simp only [decimal_years]
    apply List.map_congr_left
    intro r _
    unfold dateSeconds
    rw [div_eq_div_iff (by norm_num) (by norm_num)]
    ring
  · intro E i hi
    rw [indicesQ, List.getD_eq_getElem?_getD, List.getElem?_map,
      List.getElem?_range hi]
    rfl

unseal Rat.inv Rat.add Rat.mul Rat.sub Rat.ofScientific in
/-- Witness for C8: a two-sample GNSS series one day apart has decimal
years by the 365.25-day rule, the third InSAR epoch has index 2, and the
exact fit of the points (0, 3), (1, 5) - slope 2, intercept 3 - has a
residual sum of squares no greater than that of the zero line. -/
theorem trend_fitter_x_inputs_and_ols_witness :
    decimal_years [⟨59000, 1, 2, 3, 4⟩, ⟨59001, 1, 2, 3, 5⟩] =
      ([⟨59000, 1, 2, 3, 4⟩, ⟨59001, 1, 2, 3, 5⟩] : List GnssRow).map
        (fun r => (r.mjd - (⟨59000, 1, 2, 3, 4⟩ : GnssRow).mjd) / 365.25) ∧
    (indicesQ 3).getD 2 0 = 2 ∧
    rss (([0, 1] : List ℚ).zip [3, 5]) 2 3 ≤ rss (([0, 1] : List ℚ).zip [3, 5]) 0 0 :=
  ⟨trend_fitter_x_inputs_and_ols.1 ⟨59000, 1, 2, 3, 4⟩ [⟨59001, 1, 2, 3, 5⟩],
   trend_fitter_x_inputs_and_ols.2.1 3 2 (by norm_num),
   trend_fitter_x_inputs_and_ols.2.2 [0, 1] [3, 5] 2 3 (by rfl) 0 0⟩

end InsarGnss
